import Mathlib

/-!
# Verification of the Animated Scenes animation engine

A shallow embedding, in Lean 4, of the core of the `animated_scenes`
Home Assistant custom integration (module
`custom_components/animated_scenes/animations.py`), together with
theorems settling a list of claims about its behaviour.

Embedding conventions:
* Python dicts used as keyed tables (`light_owner`, `_light_animations`,
  `animations`, `states`) become association lists with an update-or-insert
  operation (`aset`) mirroring dict assignment, so insertion order is
  preserved exactly as CPython preserves it, and a key occurs at most once.
* Animation objects are mutable and shared between the registry, the
  per-light lists and the owner table; we give every created animation a
  numeric identity (standing for the Python object identity) and keep the
  single mutable record in an append-only table keyed by that identity.
* Randomness (`random.sample`, `random.choices`, `random.randrange`,
  `random.uniform`) is made explicit: each call site takes the draw as an
  oracle argument, and the functions compute deterministically from it.
* Python floats are modelled by rationals; `round(x, 1)` is modelled by
  round-half-to-even at one decimal, which is what CPython's `round`
  computes on the exactly-representable inputs used in the theorems below.
* Fallible code (Python exceptions) returns `Except String`.
-/

namespace AnimatedScenes

/-! ## Association lists (Python dict semantics) -/

/-- Lookup in an association list (`d[k]` / `d.get(k)`): the value at the
first matching key. Lists built with `aset` have unique keys, like a dict. -/
def aget {κ α : Type} [DecidableEq κ] : List (κ × α) → κ → Option α
  | [], _ => none
  | p :: t, k => if p.1 = k then some p.2 else aget t k

/-- Dict assignment `d[k] = v`: update the existing entry in place, else
append a new entry at the end (CPython dicts preserve insertion order). -/
def aset {κ α : Type} [DecidableEq κ] : List (κ × α) → κ → α → List (κ × α)
  | [], k, v => [(k, v)]
  | p :: t, k, v => if p.1 = k then (k, v) :: t else p :: aset t k v

/-- Dict deletion `del d[k]` (no-op when the key is absent, which the code
never relies on for dicts whose deletion sites are reachable). -/
def adel {κ α : Type} [DecidableEq κ] : List (κ × α) → κ → List (κ × α)
  | [], _ => []
  | p :: t, k => if p.1 = k then t else p :: adel t k


/-! ## Color temperature conversion

`_convert_mireds_to_kelvin` (animations.py lines 216-225) and the mired
color normalisation `Animation._change_mired_colors_to_kelvin`
(lines 358-375). -/

/-- Modelled from the spec: `MIN_KELVIN` is imported in animations.py from
the integration's `const` module, but the shipped `const.py` does not define
it; the spec names it only as the lower kelvin clamp bound. We use the host
platform's (Home Assistant's) standard minimum kelvin bound, 2000 K. -/
def MIN_KELVIN : Int := 2000

/-- Modelled from the spec: `MAX_KELVIN` is imported in animations.py from
the integration's `const` module, but the shipped `const.py` does not define
it; the spec names it only as the upper kelvin clamp bound. We use the host
platform's (Home Assistant's) standard maximum kelvin bound, 6535 K. -/
def MAX_KELVIN : Int := 6535

/-- `_convert_mireds_to_kelvin(mireds)`: raises `IntegrationError` for
`mireds <= 0`, otherwise computes `int(1000000 / mireds)` and clamps it into
`[MIN_KELVIN, MAX_KELVIN]`. Python's `int()` on the (positive) float
quotient truncates toward zero, i.e. takes the floor; for every `mireds`
small enough that the unclamped result can lie inside the clamp interval
the float quotient is exact enough that the truncation agrees with exact
integer division, which is what we use. -/
def convertMiredsToKelvin (mireds : Int) : Except String Int :=
  if mireds ≤ 0 then .error "Mireds must be a positive integer"
  else
    let kelvin := 1000000 / mireds
    if kelvin < MIN_KELVIN then .ok MIN_KELVIN
    else if kelvin > MAX_KELVIN then .ok MAX_KELVIN
    else .ok kelvin

/-- The conversion as the spec words it ("round(1_000_000/mireds) clamped
to [MIN_KELVIN, MAX_KELVIN]"), for comparison with the code's
`convertMiredsToKelvin`. `round` is rounding to the nearest integer. -/
def specMiredsToKelvin (mireds : Int) : Except String Int :=
  if mireds ≤ 0 then .error "Mireds must be a positive integer"
  else
    let kelvin : Int := round ((1000000 : ℚ) / (mireds : ℚ))
    if kelvin < MIN_KELVIN then .ok MIN_KELVIN
    else if kelvin > MAX_KELVIN then .ok MAX_KELVIN
    else .ok kelvin

/-- A value held under the `color` key of a color spec dict: an integer
(color temperatures) or a tuple of numbers (RGB/RGBW/RGBWW/HS/XY). -/
inductive CVal : Type
  | int (n : Int)
  | tup (l : List ℚ)
deriving DecidableEq, Repr

/-- The integer under an integer-valued `color` key (color-temperature
specs are schema-validated to hold an integer). -/
def CVal.asInt : CVal → Int
  | .int n => n
  | .tup _ => 0

/-- A Python number: `int` or `float`. `isinstance(·, float)` dispatch in
`get_static_or_random` distinguishes the two. Floats are modelled as
rationals. -/
inductive PyNum : Type
  | int (n : Int)
  | float (q : ℚ)
deriving DecidableEq, Repr

def PyNum.isFloat : PyNum → Bool
  | .int _ => false
  | .float _ => true

def PyNum.toQ : PyNum → ℚ
  | .int n => n
  | .float q => q

def PyNum.toInt : PyNum → Int
  | .int n => n
  | .float q => ⌊q⌋

/-- A value that is either a single number or a two-element range
`[lo, hi]`, as accepted by `get_static_or_random` for brightness,
transition, change_frequency and change_amount. -/
inductive PyVal : Type
  | num (x : PyNum)
  | list2 (a b : PyNum)
deriving DecidableEq, Repr

/-- A validated color spec (one entry of the `colors` list). After schema
validation every spec carries `brightness`, `weight`,
`one_change_per_tick` and `nearby_colors` (they have schema defaults);
`brightness` is kept optional because `build_light_attributes` tests dict
membership on it. -/
structure ColorSpec : Type where
  ctype : String
  cval : CVal
  brightness : Option PyVal := none
  weight : Int := 10
  oneChangePerTick : Bool := false
  nearby : Int := 0
deriving DecidableEq, Repr

/-- Home Assistant attribute names used as `color_type` discriminators. -/
def ATTR_COLOR_TEMP : String := "color_temp"

def ATTR_COLOR_TEMP_KELVIN : String := "color_temp_kelvin"

def ATTR_RGB_COLOR : String := "rgb_color"

/-- `Animation._change_mired_colors_to_kelvin`: every `color_temp` (mired)
spec is converted in place to a `color_temp_kelvin` spec; a spec whose
conversion raises (mireds ≤ 0) is removed from the list; other specs pass
through untouched. (The Python loop iterates over a copy of the list and
removes by value, which on dicts is removal of the equal element; the net
effect on the list is this filter-map.) -/
def changeMiredColorsToKelvin (colors : List ColorSpec) : List ColorSpec :=
  colors.filterMap fun c =>
    if c.ctype = ATTR_COLOR_TEMP then
      match convertMiredsToKelvin c.cval.asInt with
      | .ok kelvin => some { c with ctype := ATTR_COLOR_TEMP_KELVIN, cval := .int kelvin }
      | .error _ => none
    else some c

/-! ## `get_static_or_random` (animations.py lines 751-780) -/

/-- Round-half-to-even to an integer, over ℚ: CPython's `round` on a float
whose value is exactly representable (all inputs used below are). -/
def roundHalfEven (q : ℚ) : Int :=
  let f := ⌊q⌋
  let frac := q - f
  if frac < 1/2 then f
  else if frac > 1/2 then f + 1
  else if f % 2 = 0 then f else f + 1

/-- Python `round(q, 1)`: round-half-to-even at one decimal. -/
def round1 (q : ℚ) : ℚ := (roundHalfEven (10 * q) : ℚ) / 10

/-- One random draw for `get_static_or_random`:
* `r` is the `random.uniform(a, b)` draw expressed as a position in
  `[0, 1]` (so the drawn value is `a + (b - a) * r`),
* `eps` is the positive nudge `math.nextafter(hi, math.inf) - hi`
  applied to the upper bound of a float range,
* `k` drives `random.randrange` (the selected element is the `k`-th of the
  range, modulo its size). -/
structure GsrOracle : Type where
  r : ℚ := 0
  eps : ℚ := 1 / 1000000000000
  k : Nat := 0
deriving Repr

/-- `random.randrange(start, stop, step)` for `step > 0`: raises
`ValueError` on an empty range, else returns `start + step * i` for a
random `i < n` where `n` is the number of values in the range. -/
def randrangeM (start stop step : Int) (k : Nat) : Except String Int :=
  if start ≥ stop ∨ step ≤ 0 then .error "empty range for randrange()"
  else
    let n := ((stop - start + step - 1) / step).toNat
    .ok (start + step * (k % n : Nat))

/-- `Animation.get_static_or_random(value, step=1)`: scalars pass through;
a two-element list is sampled — via `randrange(lo, hi + step, step)` when
both bounds are ints (inclusive upper bound), and via
`round(uniform(lo, nextafter(hi, inf)), 1)` when either bound is a float. -/
def getStaticOrRandom (value : PyVal) (step : Int) (o : GsrOracle) :
    Except String ℚ :=
  match value with
  | .num x => .ok x.toQ
  | .list2 a b =>
    if a.isFloat || b.isFloat then
      let upper := b.toQ + o.eps
      .ok (round1 (a.toQ + (upper - a.toQ) * o.r))
    else
      (randrangeM a.toInt (b.toInt + step) step o.k).map (fun n => (n : ℚ))


/-! ## Light state environment and the active-light policy -/

/-- `hass.states.get`: maps an entity id to its current state string
(`"on"`, `"off"`, ...), or `none` for an unknown entity. -/
abbrev Env := String → Option String

/-- `Animation.add_light` (lines 377-395): skip unknown entities with a
warning; append the light to `_active_lights` when it is not already there
and `state.state != "off" or self._ignore_off` holds. -/
def addLight (env : Env) (ignoreOff : Bool) (active : List String)
    (light : String) : List String :=
  match env light with
  | none => active
  | some s =>
    if light ∉ active ∧ (s ≠ "off" ∨ ignoreOff) then active ++ [light]
    else active

/-- `Animation.add_lights` (lines 397-410), the `_active_lights` part:
fold `add_light` over the given ids. (The subsequent
`store_states(self._active_lights)` is modelled at the manager level.) -/
def addLights (env : Env) (ignoreOff : Bool) (active : List String)
    (ids : List String) : List String :=
  ids.foldl (addLight env ignoreOff) active

/-! ## Random sampling and per-tick light selection -/

/-- The selection made by `random.sample(pop, k)` once `k ≤ pop.length`:
the oracle picks which remaining element is drawn at each of the `k`
draws (without replacement). -/
def sampleGo (pop : List String) (k : Nat) (oracle : List Nat) : List String :=
  match k, oracle with
  | 0, _ => []
  | k + 1, o =>
    let i := o.headD 0 % pop.length
    pop.getD i "" :: sampleGo (pop.eraseIdx i) k o.tail

/-- `random.sample(pop, k)`: raises
`ValueError: Sample larger than population or is negative` when
`k > len(pop)`, otherwise returns `k` distinct elements. -/
def sampleM (pop : List String) (k : Nat) (oracle : List Nat) :
    Except String (List String) :=
  if k > pop.length then .error "Sample larger than population or is negative"
  else .ok (sampleGo pop k oracle)

/-- The accumulation loop of `Animation.pick_lights` (lines 794-802, the
branch taken when `not self._ignore_off`): walk the sampled list, keep the
lights whose state is not `"off"` and return as soon as `change_amount`
lights have been kept. `state.state` on a missing entity is an
`AttributeError` in Python (`None.state`). -/
def pickLoop (env : Env) (n : Nat) :
    List String → List String → Except String (List String)
  | [], acc => .ok acc
  | l :: ls, acc =>
    match env l with
    | none => .error "AttributeError: NoneType object has no attribute state"
    | some s =>
      let acc' := if s ≠ "off" then acc ++ [l] else acc
      if acc'.length ≥ n then .ok acc' else pickLoop env n ls acc'

/-- `Animation.pick_lights(change_amount)` (lines 787-803): when
`self._ignore_off` is false, filter a without-replacement sample of
`_active_lights` down to not-off lights with the short-circuiting loop;
when `self._ignore_off` is true, return the raw sample. -/
def pickLights (ignoreOff : Bool) (env : Env) (active : List String)
    (n : Nat) (oracle : List Nat) : Except String (List String) :=
  if !ignoreOff then
    match sampleM active n oracle with
    | .error e => .error e
    | .ok randomized => pickLoop env n randomized []
  else sampleM active n oracle

/-! ## Color picking and per-light attribute synthesis -/

instance : Inhabited ColorSpec := ⟨⟨"", .int 0, none, 10, false, 0⟩⟩

/-- The weights list built by the `Animation` constructor (lines 327-329):
one `weight` per color (after schema validation every color dict carries
the `weight` key, by its default). -/
def mkWeights (colors : List ColorSpec) : List Int := colors.map (·.weight)

/-- Index selected by `random.choices(population, weights, k=1)` for a
draw at position `p` (`0 ≤ p < total`): the first index whose cumulative
weight exceeds `p`. -/
def weightedIndex : List Int → Int → Nat
  | [], _ => 0
  | w :: ws, p => if p < w then 0 else weightedIndex ws (p - w) + 1

/-- `Animation.pick_color` (lines 782-785), i.e.
`random.choices(self._colors, self._weights, k=1).pop()`: raises
`ValueError` when the weights and population lengths differ, `IndexError`
on an empty population (`cum_weights[-1]`), `ValueError` when the weights
sum to zero, and otherwise returns a weighted random color. -/
def pickColor (colors : List ColorSpec) (weights : List Int) (pick : Nat) :
    Except String ColorSpec :=
  if colors.length ≠ weights.length then
    .error "The number of weights does not match the population"
  else if colors.isEmpty then
    .error "IndexError: cum_weights is empty"
  else
    let total := weights.sum
    if total ≤ 0 then .error "Total of weights must be greater than zero"
    else .ok (colors.getD (weightedIndex weights ((pick : Int) % total)) default)

/-- The service data built for one `light.turn_on` call. -/
structure LightAttrs : Type where
  entity : String
  transition : ℚ
  colorAttr : Option (String × CVal) := none
  brightness : Option ℚ := none
deriving DecidableEq, Repr

/-- The per-animation configuration consumed by
`build_light_attributes`. -/
structure AnimCfg : Type where
  sequence : Bool := false
  colors : List ColorSpec := []
  weights : List Int := []
  animateColor : Bool := true
  animateBrightness : Bool := true
  globalBrightness : Option PyVal := some (.num (.int 255))
  transition : PyVal := .num (.float 1)

/-- `_light_status[light]`: the `{change_one, brightness}` carry-over
stored by a `one_change_per_tick` color. -/
abbrev LightStatusMap := List (String × (Bool × PyVal))

/-- Random draws consumed by one `build_light_attributes` call. `coin`
drives `randrange(1, 3, 1)` (the drawn value is `1 + coin % 2`); `nearby`
is the outcome of `find_nearby_color`'s randomized HLS perturbation,
taken as an oracle because no claim depends on its value. -/
structure BuildOracle : Type where
  coin : Nat := 0
  trans : GsrOracle := {}
  bri : GsrOracle := {}
  pick : Nat := 0
  nearby : CVal → CVal := id

/-- The main path of `Animation.build_light_attributes` (lines 464-499):
color selection (sequence index or weighted pick), transition, color
attribute (with optional nearby perturbation), brightness resolution and
the `one_change_per_tick` carry-over record. -/
def buildLightAttributesMain (a : AnimCfg) (status : LightStatusMap)
    (curIdx : Nat) (light : String) (initial : Bool) (o : BuildOracle) :
    Except String (LightAttrs × LightStatusMap) := do
  let color ←
    if a.sequence then
      match a.colors[curIdx]? with
      | some c => pure c
      | none => Except.error "IndexError: list index out of range"
    else pickColor a.colors a.weights o.pick
  let t ← getStaticOrRandom a.transition 1 o.trans
  let colorAttr :=
    if a.animateColor || initial then
      some (color.ctype, if color.nearby > 0 then o.nearby color.cval else color.cval)
    else none
  let brightness ←
    if a.animateBrightness then
      match color.brightness with
      | some cb => (getStaticOrRandom cb 1 o.bri).map some
      | none =>
        match a.globalBrightness with
        | some gb => (getStaticOrRandom gb 1 o.bri).map some
        | none => pure none
    else
      match a.globalBrightness with
      | some (.num (.int n)) => pure (some (n : ℚ))
      | _ => pure none
  let status' :=
    match color.brightness with
    | some cb =>
      if color.oneChangePerTick then aset status light (color.oneChangePerTick, cb)
      else status
    | none => status
  return ({ entity := light, transition := t, colorAttr := colorAttr,
            brightness := brightness }, status')

/-- `Animation.build_light_attributes` (lines 440-499): when the light has
pending `one_change_per_tick` state, a `randrange(1, 3, 1)` coin flip of 2
short-circuits into a pure brightness nudge; otherwise the main path
runs. -/
def buildLightAttributes (a : AnimCfg) (status : LightStatusMap)
    (curIdx : Nat) (light : String) (initial : Bool) (o : BuildOracle) :
    Except String (LightAttrs × LightStatusMap) :=
  match aget status light with
  | some (changeOne, bri) =>
    if changeOne ∧ 1 + o.coin % 2 = 2 then do
      let t ← getStaticOrRandom a.transition 1 o.trans
      let b ← getStaticOrRandom bri 1 o.bri
      return ({ entity := light, transition := t, brightness := some b }, status)
    else buildLightAttributesMain a status curIdx light initial o
  | none => buildLightAttributesMain a status curIdx light initial o

/-- `Animation.update_light(entity_id, initial)` (lines 826-849): look up
`light_owner[entity_id]` (a `KeyError` when absent); when the owner is not
this animation, log and skip — no service call; otherwise build the
attributes (any exception there propagates: the build happens while
evaluating the argument of `safe_call`, outside its `try`) and issue the
`light.turn_on` call, whose own failures `safe_call` swallows. Returns
the issued attributes (`none` = skipped) and the updated
`_light_status`. -/
def updateLightM (ownerOfLight : Option Nat) (selfId : Nat) (a : AnimCfg)
    (status : LightStatusMap) (curIdx : Nat) (light : String)
    (initial : Bool) (o : BuildOracle) :
    Except String (Option LightAttrs × LightStatusMap) :=
  match ownerOfLight with
  | none => .error "KeyError: light_owner"
  | some oid =>
    if oid ≠ selfId then .ok (none, status)
    else (buildLightAttributes a status curIdx light initial o).map
      (fun r => (some r.1, r.2))

/-- The `change_amount` configuration: `"all"` (or any other string, which
makes the tick a silent no-op), or a number / two-element range. -/
inductive ChangeAmount : Type
  | str (s : String)
  | num (v : PyVal)
deriving DecidableEq, Repr

/-- The change-amount resolution of `Animation.update_lights`
(lines 853-861): a string other than `"all"` or a non-positive resolved
number yields `none` (the tick silently does nothing); `"all"` resolves to
the active-light count; a positive resolved number is truncated by
`int()`. -/
def resolveChangeAmount (ca : ChangeAmount) (activeLen : Nat)
    (o : GsrOracle) : Except String (Option Int) :=
  match ca with
  | .str s => if s = "all" then .ok (some activeLen) else .ok none
  | .num v =>
    (getStaticOrRandom v 1 o).map (fun q => if q ≤ 0 then none else some ⌊q⌋)

/-- Random draws consumed by one `update_lights` tick. -/
structure TickOracle : Type where
  amount : GsrOracle := {}
  sample : List Nat := []
  build : String → BuildOracle := fun _ => {}

/-- `Animation.update_lights` (lines 851-870): resolve the change amount
(`.ok none` = silent no-op tick), pick the lights, advance the sequence
index (with the circular reset), then dispatch one `update_light` per
selected light. The `asyncio.gather` fan-out is modelled sequentially:
each coroutine's mutations are synchronous up to its only await. -/
def updateLightsM (ownerOf : String → Option Nat) (selfId : Nat)
    (a : AnimCfg) (ignoreOff : Bool) (env : Env) (active : List String)
    (ca : ChangeAmount) (status : LightStatusMap) (curIdx : Nat)
    (o : TickOracle) :
    Except String (Option (List (Option LightAttrs) × LightStatusMap × Nat)) := do
  match ← resolveChangeAmount ca active.length o.amount with
  | none => return none
  | some n =>
    let lightsToChange ← pickLights ignoreOff env active n.toNat o.sample
    let idx1 := if a.sequence then curIdx + 1 else curIdx
    let idx2 := if idx1 ≥ a.colors.length then 0 else idx1
    let folded ← lightsToChange.foldlM
      (fun (acc : List (Option LightAttrs) × LightStatusMap) light => do
        let (r, st') ← updateLightM (ownerOf light) selfId a acc.2 idx2 light
          false (o.build light)
        pure (acc.1 ++ [r], st'))
      ([], status)
    return some (folded.1, folded.2, idx2)

/-! ## The animation loop and `Animation.start` -/

/-- How one `animate()` run ended. -/
inductive LoopExit : Type
  | finished
  | aborted (e : String)
deriving DecidableEq, Repr

/-- `Animation.animate` (lines 412-438): run ticks until the animation is
deregistered / its task is done (here: until the given tick results run
out) or a tick raises; the `finally` block runs `release()` exactly once
on every exit path — the returned Bool records that it ran. -/
def animateRun {α : Type} : List (Except String α) → LoopExit × Bool
  | [] => (.finished, true)
  | .error e :: _ => (.aborted e, true)
  | .ok _ :: rest => animateRun rest

/-- The `change_frequency` configuration. -/
inductive ChangeFreq : Type
  | noneV
  | scalar (q : ℚ)
  | rangeV (a b : ℚ)
deriving DecidableEq, Repr

/-- Python truthiness of the stored `change_frequency`
(`if not self._change_frequency`): `None` and the float `0.0` are falsy; a
two-element list is always truthy. -/
def changeFreqFalsy : ChangeFreq → Bool
  | .noneV => true
  | .scalar q => q = 0
  | .rangeV _ _ => false

/-- What `Animation.start` did about scheduling. -/
inductive StartSchedule : Type
  | releasedImmediately
  | scheduledNew
  | keptExistingTask
deriving DecidableEq, Repr

/-- The `asyncio.gather` fan-out of `update_light(light, True)` calls in
`Animation.start`, modelled sequentially (each coroutine's mutations are
synchronous up to its only await): walk the active lights threading the
shared `_light_status`; the first exception propagates out of the
gather. -/
def fanOutGo (ownerOf : String → Option Nat) (selfId : Nat) (a : AnimCfg)
    (o : String → BuildOracle) :
    List String → List (Option LightAttrs) → LightStatusMap →
      Except String (List (Option LightAttrs))
  | [], rs, _ => .ok rs
  | l :: ls, rs, status =>
    match updateLightM (ownerOf l) selfId a status 0 l true (o l) with
    | .error e => .error e
    | .ok (r, st') => fanOutGo ownerOf selfId a o ls (rs ++ [r]) st'

/-- The initial fan-out of `Animation.start` (lines 878-879): one
`update_light(light, True)` per active light, on a fresh (empty)
`_light_status` and sequence index 0. -/
def startFanOutM (ownerOf : String → Option Nat) (selfId : Nat)
    (a : AnimCfg) (active : List String) (o : String → BuildOracle) :
    Except String (List (Option LightAttrs)) :=
  fanOutGo ownerOf selfId a o active [] []

/-- `Animation.start` (lines 872-888): run the initial fan-out (an
exception there propagates and nothing further happens); with a falsy
`change_frequency` release immediately; otherwise create the `animate`
task only when none exists yet. -/
def animationStartM (fanOut : Except String (List (Option LightAttrs)))
    (cf : ChangeFreq) (hasTask : Bool) : Except String StartSchedule := do
  let _ ← fanOut
  if changeFreqFalsy cf then pure .releasedImmediately
  else if !hasTask then pure .scheduledNew
  else pure .keptExistingTask

/-! ## The Animations manager (animations.py lines 900-1223)

Python `Animation` objects are mutable and shared between the manager's
registry, the per-light lists and the owner table. We therefore identify
every created animation by a numeric id (its object identity) and keep the
one mutable record in an append-only id-keyed table; the registry, the
per-light lists and the owner table hold ids. The only mutable field the
manager-level operations touch is `_active_lights`; `name`, `priority` and
the configured `lights` list never change after construction. -/

/-- The per-animation state the manager operations read and write. -/
structure AnimRec : Type where
  name : String
  priority : Int
  lights : List String
  active : List String
  ignoreOff : Bool
  restore : Bool
  restorePower : Bool
deriving DecidableEq, Repr

/-- The manager's tables. `stored` keeps only the key set of
`Animations.states` (the snapshot values are opaque `State` objects used
solely by the restore service calls, which are I/O). -/
structure MState : Type where
  table : List (Nat × AnimRec) := []
  registry : List (String × Nat) := []
  lightAnims : List (String × List Nat) := []
  owner : List (String × Nat) := []
  stored : List String := []
deriving DecidableEq, Repr

/-- `light_owner[light]`. -/
def MState.ownerOf (st : MState) (light : String) : Option Nat :=
  aget st.owner light

/-- `self.get_animation_for_light(light).priority`: the priority of the
animation object the owner table points at. Owner ids always live in the
table (it is append-only), so the default is never read. -/
def ownerPriority (st : MState) (oid : Nat) : Int :=
  ((aget st.table oid).map (·.priority)).getD 0

/-- The per-light ownership-claim step shared by `Animations.start`
(lines 1032-1040) and `Animations.add_lights_to_animation`
(lines 1155-1163): transfer ownership when the light is unowned or the
current owner's priority is `<=` the claimant's, and in every case append
the claimant to `_light_animations[light]`. -/
def claimLight (st : MState) (animId : Nat) (prio : Int) (light : String) :
    MState :=
  let takeover : Bool :=
    match aget st.owner light with
    | none => true
    | some oid => ownerPriority st oid ≤ prio
  let owner' := if takeover then aset st.owner light animId else st.owner
  let la' := aset st.lightAnims light (((aget st.lightAnims light).getD []) ++ [animId])
  { st with owner := owner', lightAnims := la' }

/-- The claim loop over a light list. -/
def claimLights (st : MState) (animId : Nat) (prio : Int)
    (lights : List String) : MState :=
  lights.foldl (fun s l => claimLight s animId prio l) st

/-- A validated `start` request (the fields of the START service schema
that the engine reads; defaults as in the schema). -/
structure StartCfg : Type where
  name : String
  priority : Int := 100
  lights : List String := []
  ignoreOff : Bool := true
  restore : Bool := true
  restorePower : Bool := true
  colors : List ColorSpec := []
  sequence : Bool := false
  animateColor : Bool := true
  animateBrightness : Bool := true
  brightness : PyVal := .num (.int 255)
  transition : PyVal := .num (.float 1)
  changeFrequency : ChangeFreq := .noneV
  changeAmount : ChangeAmount := .num (.num (.int 1))

/-- The build-time view of a start configuration, as the `Animation`
constructor produces it: mired colors are normalised first
(`_change_mired_colors_to_kelvin`), then the weights list is extracted
from the surviving colors. -/
def StartCfg.animCfg (c : StartCfg) : AnimCfg :=
  let colors := changeMiredColorsToKelvin c.colors
  { sequence := c.sequence
    colors := colors
    weights := mkWeights colors
    animateColor := c.animateColor
    animateBrightness := c.animateBrightness
    globalBrightness := some c.brightness
    transition := c.transition }

/-- `Animation.__init__` (lines 292-331), the manager-visible part: the
configured light list is frozen and the active list is computed by folding
`add_light` over it. -/
def mkAnimRec (env : Env) (cfg : StartCfg) : AnimRec :=
  { name := cfg.name
    priority := cfg.priority
    lights := cfg.lights
    active := addLights env cfg.ignoreOff [] cfg.lights
    ignoreOff := cfg.ignoreOff
    restore := cfg.restore
    restorePower := cfg.restorePower }

/-- `Animations.store_state` / `store_states` (lines 1190-1199), key set
only: snapshot a light's state unless one is already stored. -/
def storeStatesOp (stored : List String) (lights : List String) :
    List String :=
  lights.foldl (fun acc l => if l ∈ acc then acc else acc ++ [l]) stored

/-- `Animations.start` (lines 1023-1042) for a fresh name (restarting an
existing name first stops — and thereby releases — the old animation,
which corresponds to a sequence of release steps before this one):
construct the animation (which snapshots its active lights), run the
ownership-claim loop over its configured lights, and register it by name.
The subsequent `animation.start()` fan-out only issues service calls. -/
def startOp (env : Env) (st : MState) (animId : Nat) (cfg : StartCfg) :
    MState :=
  let rcd := mkAnimRec env cfg
  let st1 := { st with
    table := aset st.table animId rcd
    stored := storeStatesOp st.stored rcd.active }
  let st2 := claimLights st1 animId cfg.priority cfg.lights
  { st2 with registry := aset st2.registry cfg.name animId }

/-- `Animations.add_lights_to_animation` (lines 1120-1165), after the
animation has been resolved by name (resolution by companion switch ends
in a name as well; an unknown name raises before any mutation): run the
ownership-claim loop with the target animation's priority, then have the
animation add the lights to its active list and snapshot them. -/
def addLightsToAnimationOp (env : Env) (st : MState) (name : String)
    (lights : List String) : MState :=
  match aget st.registry name with
  | none => st
  | some aid =>
    let prio := ownerPriority st aid
    let st2 := claimLights st aid prio lights
    match aget st2.table aid with
    | none => st2
    | some rcd =>
      let act := addLights env rcd.ignoreOff rcd.active lights
      { st2 with
        table := aset st2.table aid { rcd with active := act }
        stored := storeStatesOp st2.stored act }

/-- `Animations.refresh_animation_for_light` (lines 1013-1021): scan
`_light_animations[light]` for the entry with the strictly highest
priority among those that still list the light in their configured set;
on ties the first one found wins. -/
def refreshAnimationForLight (st : MState) (light : String) : Option Nat :=
  (((aget st.lightAnims light).getD []).foldl
    (fun (acc : Option Nat × Int) aid =>
      match aget st.table aid with
      | some rcd =>
        if light ∈ rcd.lights ∧ rcd.priority > acc.2 then (some aid, rcd.priority)
        else acc
      | none => acc)
    (none, -(2 ^ 31))).1

/-- `Animations.release_light` (lines 1078-1118): remove the animation
from `_light_animations[light]`; stop there when it is not the current
owner; otherwise hand ownership to the best remaining animation when one
exists (and ownership transfer is not skipped), and failing that run the
restore branch (pure service-call effects, elided here) and delete the
stored snapshot. The owner-table entry is never deleted. -/
def releaseLightOp (st : MState) (animId : Nat) (light : String)
    (skipOwn _skipRestore : Bool) : MState :=
  let la := ((aget st.lightAnims light).getD []).erase animId
  let st1 := { st with lightAnims := aset st.lightAnims light la }
  if aget st1.owner light ≠ some animId then st1
  else
    let handoff :=
      if la.length > 0 ∧ ¬skipOwn then refreshAnimationForLight st1 light
      else none
    match handoff with
    | some newOwner => { st1 with owner := aset st1.owner light newOwner }
    | none => { st1 with stored := st1.stored.erase light }

/-- `Animations.remove_lights` (lines 1167-1188). Phase 1 runs
synchronously: for every requested light with an owner, remember the
(owner, light) pair and remove the light from that owner's active list.
Phase 2 is the `asyncio.gather` of `release_light(owner, light, True,
skip_restore)` calls, whose table mutations all precede their awaits and
so apply in creation order. Phase 3 deletes the requested lights' now
empty `_light_animations` entries, and phase 4 stops every affected
animation left with no active lights — cancelling its task makes the
loop's `finally` run `release()`, which (over the now empty active list)
only deregisters the animation by name. -/
def removeLightsOp (st : MState) (lights : List String)
    (skipRestore : Bool) : MState :=
  let tasks := lights.filterMap fun light =>
    (aget st.owner light).map (fun aid => (aid, light))
  let st1 := tasks.foldl
    (fun s (p : Nat × String) =>
      match aget s.table p.1 with
      | some rcd =>
        { s with table := aset s.table p.1 { rcd with active := rcd.active.erase p.2 } }
      | none => s)
    st
  let st2 := tasks.foldl
    (fun s (p : Nat × String) => releaseLightOp s p.1 p.2 true skipRestore) st1
  let st3 := { st2 with
    lightAnims := st2.lightAnims.filter (fun q => ¬(q.1 ∈ lights ∧ q.2 = [])) }
  ((tasks.map (·.1)).dedup.filter fun aid =>
      match aget st3.table aid with
      | some rcd => rcd.active.isEmpty
      | none => false).foldl
    (fun s aid =>
      match aget s.table aid with
      | some rcd => { s with registry := adel s.registry rcd.name }
      | none => s)
    st3

/-- The manager operations named by the ownership claims, as a transition
relation. Guards record the preconditions under which the Python
operation runs to completion instead of raising on entry:
a `start` uses a fresh name (restarting a running name first releases the
old animation, i.e. is a sequence of release steps) and a fresh object
identity; `add_lights_to_animation` needs a running animation;
`release_light` is called with an animation actually holding the light
(`list.remove` raises otherwise) on a light with an owner entry;
`remove_lights` needs every requested owner to still be listed for its
light, else its `release_light` raises mid-way. -/
inductive Step : MState → MState → Prop
  | start (env : Env) (st : MState) (animId : Nat) (cfg : StartCfg)
      (hname : aget st.registry cfg.name = none)
      (hid : aget st.table animId = none) :
      Step st (startOp env st animId cfg)
  | addLights (env : Env) (st : MState) (name : String) (lights : List String)
      (hname : (aget st.registry name).isSome) :
      Step st (addLightsToAnimationOp env st name lights)
  | releaseLight (st : MState) (animId : Nat) (light : String)
      (skipOwn skipRestore : Bool)
      (hmem : animId ∈ (aget st.lightAnims light).getD [])
      (howner : (aget st.owner light).isSome) :
      Step st (releaseLightOp st animId light skipOwn skipRestore)
  | removeLights (st : MState) (lights : List String) (skipRestore : Bool)
      (hsafe : ∀ light ∈ lights, ∀ aid, aget st.owner light = some aid →
        aid ∈ (aget st.lightAnims light).getD []) :
      Step st (removeLightsOp st lights skipRestore)

/-- The manager right after `Animations(hass)` is constructed. -/
def initState : MState := {}

/-- States reachable by any sequence of the four operations. -/
def Reachable (st : MState) : Prop :=
  Relation.ReflTransGen Step initState st

/-- The sub-relation with only the claiming operations (`start` and
`add_lights_to_animation`). -/
inductive StepSA : MState → MState → Prop
  | start (env : Env) (st : MState) (animId : Nat) (cfg : StartCfg)
      (hname : aget st.registry cfg.name = none)
      (hid : aget st.table animId = none) :
      StepSA st (startOp env st animId cfg)
  | addLights (env : Env) (st : MState) (name : String) (lights : List String)
      (hname : (aget st.registry name).isSome) :
      StepSA st (addLightsToAnimationOp env st name lights)

/-- States reachable using only `start` and `add_lights_to_animation`. -/
def ReachableSA (st : MState) : Prop :=
  Relation.ReflTransGen StepSA initState st

/-- The ownership invariant of the claim: the owner table is a map (at
most one entry per light) and every owner id still appears in its light's
`_light_animations` list. -/
def OwnerInLightAnims (st : MState) : Prop :=
  ((st.owner.map (·.1)).Nodup) ∧
    ∀ p ∈ st.owner, p.2 ∈ (aget st.lightAnims p.1).getD []

instance (st : MState) : Decidable (OwnerInLightAnims st) := by
  unfold OwnerInLightAnims; infer_instance

/-- The per-light ownership decision (the condition of
`Animations.start` lines 1033-1037, also used verbatim in
`add_lights_to_animation` lines 1156-1160), as a function of the current
owner entry: an unowned light is claimed; an owned one is taken over
exactly when the current owner's priority is `<=` the claimant's. -/
def claimRule (table : List (Nat × AnimRec)) (animId : Nat) (prio : Int) :
    Option Nat → Option Nat
  | none => some animId
  | some oid =>
    if ((aget table oid).map (·.priority)).getD 0 ≤ prio then some animId
    else some oid

/-! ## Concrete fixtures used by the closed theorems below -/

/-- An environment where every entity exists and is `"on"`. -/
def envAllOn : Env := fun _ => some "on"

/-- An environment with a single known light that is `"off"`. -/
def envOnePorchOff : Env := fun l => if l = "light.porch" then some "off" else none

/-- An environment with one off and one on light. -/
def envKitchen : Env := fun l =>
  if l = "light.k1" then some "off"
  else if l = "light.k2" then some "on"
  else none

def cfgAlpha : StartCfg := { name := "alpha", lights := ["light.l1"] }

def cfgBeta : StartCfg := { name := "beta", lights := ["light.l1"] }

def cfgHi : StartCfg := { name := "hi", priority := 20, lights := ["light.l2"] }

def cfgLo : StartCfg := { name := "lo", priority := 10, lights := ["light.l2"] }

/-! # Theorems -/

/-! ## Association-list facts -/

theorem aget_aset_self {κ α : Type} [DecidableEq κ]
    (l : List (κ × α)) (k : κ) (v : α) : aget (aset l k v) k = some v := by
  induction l with
  | nil => simp [aget, aset]
  | cons p t ih =>
    by_cases hp : p.1 = k
    · simp [aset, hp, aget]
    · simp [aset, hp, aget, ih]

theorem aget_aset_ne {κ α : Type} [DecidableEq κ]
    (l : List (κ × α)) (k k' : κ) (v : α) (hne : k' ≠ k) :
    aget (aset l k v) k' = aget l k' := by
  induction l with
  | nil => simp [aget, aset, Ne.symm hne]
  | cons p t ih =>
    by_cases hp : p.1 = k
    · simp [aset, hp, aget, Ne.symm hne, hp ▸ (Ne.symm hne)]
    · by_cases hp' : p.1 = k'
      · simp [aset, hp, aget, hp', hne]
      · simp [aset, hp, aget, hp', ih]

/-- `aset` leaves the key list unchanged when the key is present and appends
the single fresh key otherwise; key-uniqueness is preserved either way —
a Python dict cannot hold a key twice. -/
theorem keys_aset_nodup {κ α : Type} [DecidableEq κ]
    (l : List (κ × α)) (k : κ) (v : α)
    (h : (l.map (·.1)).Nodup) : ((aset l k v).map (·.1)).Nodup := by
  induction l with
  | nil => simp [aset]
  | cons p t ih =>
    simp only [List.map_cons, List.nodup_cons] at h
    by_cases hp : p.1 = k
    · simpa [aset, hp, List.nodup_cons] using h
    · have hmem : p.1 ∉ (aset t k v).map (·.1) := by
        intro hx
        have hkeys : (aset t k v).map (·.1) = t.map (·.1) ∨
            (aset t k v).map (·.1) = t.map (·.1) ++ [k] := by
          clear hx ih h
          induction t with
          | nil => right; simp [aset]
          | cons q s ihs =>
            by_cases hq : q.1 = k
            · left; simp [aset, hq]
            · rcases ihs with h1 | h1
              · left; simp [aset, hq, h1]
              · right; simp [aset, hq, h1]
        rcases hkeys with h1 | h1
        · exact h.1 (h1 ▸ hx)
        · rw [h1, List.mem_append] at hx
          rcases hx with hx | hx
          · exact h.1 hx
          · simp at hx; exact hp hx
      simp only [aset, if_neg hp, List.map_cons, List.nodup_cons]
      exact ⟨hmem, ih h.2⟩

/-- Entries of `aset l k v` are the new entry or entries of `l`. -/
theorem mem_aset_or {κ α : Type} [DecidableEq κ]
    (l : List (κ × α)) (k : κ) (v : α) (p : κ × α)
    (h : p ∈ aset l k v) : p = (k, v) ∨ p ∈ l := by
  induction l with
  | nil => simpa [aset] using h
  | cons q t ih =>
    by_cases hq : q.1 = k
    · simp only [aset, if_pos hq, List.mem_cons] at h
      rcases h with h | h
      · exact Or.inl h
      · exact Or.inr (List.mem_cons_of_mem _ h)
    · simp only [aset, if_neg hq, List.mem_cons] at h
      rcases h with h | h
      · exact Or.inr (h ▸ List.mem_cons_self _ _)
      · rcases ih h with h1 | h1
        · exact Or.inl h1
        · exact Or.inr (List.mem_cons_of_mem _ h1)

/-! ## Ownership-claim lemmas -/

theorem claimLight_table (st : MState) (animId : Nat) (prio : Int)
    (light : String) : (claimLight st animId prio light).table = st.table := by
  unfold claimLight
  cases aget st.owner light <;> simp

theorem claimLight_owner_self (st : MState) (animId : Nat) (prio : Int)
    (light : String) :
    aget (claimLight st animId prio light).owner light =
      claimRule st.table animId prio (aget st.owner light) := by
  unfold claimLight claimRule ownerPriority
  cases hO : aget st.owner light with
  | none => simp [aget_aset_self]
  | some oid =>
    by_cases hle : ((aget st.table oid).map (·.priority)).getD 0 ≤ prio
    · simp [hle, aget_aset_self]
    · simp [hle, hO]

theorem claimLight_owner_ne (st : MState) (animId : Nat) (prio : Int)
    (light x : String) (hx : x ≠ light) :
    aget (claimLight st animId prio light).owner x = aget st.owner x := by
  unfold claimLight
  cases hO : aget st.owner light with
  | none => simp [aget_aset_ne _ _ _ _ hx]
  | some oid =>
    by_cases hle : ownerPriority st oid ≤ prio
    · simp [hle, aget_aset_ne _ _ _ _ hx]
    · simp [hle]

theorem claimRule_idem (table : List (Nat × AnimRec)) (animId : Nat)
    (prio : Int) (x : Option Nat) :
    claimRule table animId prio (claimRule table animId prio x) =
      claimRule table animId prio x := by
  cases x with
  | none => simp [claimRule]
  | some oid =>
    by_cases hle : ((aget table oid).map (·.priority)).getD 0 ≤ prio <;>
      simp [claimRule, hle]

theorem claimLights_table (st : MState) (animId : Nat) (prio : Int)
    (lights : List String) :
    (claimLights st animId prio lights).table = st.table := by
  induction lights generalizing st with
  | nil => rfl
  | cons l ls ih =>
    simp only [claimLights, List.foldl_cons]
    rw [show (List.foldl (fun s l => claimLight s animId prio l)
      (claimLight st animId prio l) ls) =
        claimLights (claimLight st animId prio l) animId prio ls from rfl]
    rw [ih, claimLight_table]

theorem claimLights_owner_not_mem (st : MState) (animId : Nat) (prio : Int)
    (lights : List String) (light : String) (h : light ∉ lights) :
    aget (claimLights st animId prio lights).owner light =
      aget st.owner light := by
  induction lights generalizing st with
  | nil => rfl
  | cons l ls ih =>
    simp only [List.mem_cons] at h
    push_neg at h
    simp only [claimLights, List.foldl_cons]
    rw [show (List.foldl (fun s l => claimLight s animId prio l)
      (claimLight st animId prio l) ls) =
        claimLights (claimLight st animId prio l) animId prio ls from rfl]
    rw [ih _ h.2, claimLight_owner_ne _ _ _ _ _ h.1]

theorem claimLights_owner_mem (st : MState) (animId : Nat) (prio : Int)
    (lights : List String) (light : String) (h : light ∈ lights) :
    aget (claimLights st animId prio lights).owner light =
      claimRule st.table animId prio (aget st.owner light) := by
  induction lights generalizing st with
  | nil => simp at h
  | cons l ls ih =>
    simp only [claimLights, List.foldl_cons]
    rw [show (List.foldl (fun s l => claimLight s animId prio l)
      (claimLight st animId prio l) ls) =
        claimLights (claimLight st animId prio l) animId prio ls from rfl]
    by_cases hmem : light ∈ ls
    · rw [ih _ hmem, claimLight_table]
      by_cases hl : light = l
      · rw [hl, claimLight_owner_self, ← hl, claimRule_idem]
      · rw [claimLight_owner_ne _ _ _ _ _ hl]
    · have hl : light = l := by
        rcases List.mem_cons.mp h with h1 | h1
        · exact h1
        · exact absurd h1 hmem
      rw [claimLights_owner_not_mem _ _ _ _ _ hmem, hl, claimLight_owner_self]

theorem startOp_owner_mem (env : Env) (st : MState) (animId : Nat)
    (cfg : StartCfg) (light : String) (h : light ∈ cfg.lights) :
    aget (startOp env st animId cfg).owner light =
      claimRule (aset st.table animId (mkAnimRec env cfg)) animId cfg.priority
        (aget st.owner light) :=
  claimLights_owner_mem
    { st with table := aset st.table animId (mkAnimRec env cfg),
              stored := storeStatesOp st.stored (mkAnimRec env cfg).active }
    animId cfg.priority cfg.lights light h

theorem addLightsOp_owner_mem (env : Env) (st : MState) (name : String)
    (lights : List String) (aid : Nat) (light : String)
    (hreg : aget st.registry name = some aid) (h : light ∈ lights) :
    aget (addLightsToAnimationOp env st name lights).owner light =
      claimRule st.table aid (ownerPriority st aid) (aget st.owner light) := by
  unfold addLightsToAnimationOp
  simp only [hreg]
  cases htab : aget (claimLights st aid (ownerPriority st aid) lights).table aid with
  | none =>
    simp only [htab]
    exact claimLights_owner_mem st aid (ownerPriority st aid) lights light h
  | some rcd =>
    simp only [htab]
    exact claimLights_owner_mem st aid (ownerPriority st aid) lights light h

/-! ## Invariant preservation for the claiming operations -/

theorem claimLight_preserves_inv (st : MState) (animId : Nat) (prio : Int)
    (light : String) (h : OwnerInLightAnims st) :
    OwnerInLightAnims (claimLight st animId prio light) := by
  have howner : ∀ p, p ∈ (claimLight st animId prio light).owner →
      p = (light, animId) ∨ p ∈ st.owner := by
    intro p hp
    unfold claimLight at hp
    cases hO : aget st.owner light with
    | none =>
      rw [hO] at hp
      simp only at hp
      exact mem_aset_or _ _ _ _ hp
    | some oid =>
      rw [hO] at hp
      by_cases hle : ownerPriority st oid ≤ prio
      · simp only [decide_eq_true_eq, hle, if_true] at hp
        exact mem_aset_or _ _ _ _ hp
      · simp only [decide_eq_true_eq, hle, if_false] at hp
        exact Or.inr hp
  constructor
  · -- at most one owner entry per light
    unfold claimLight
    cases hO : aget st.owner light with
    | none => simpa using keys_aset_nodup _ _ _ h.1
    | some oid =>
      by_cases hle : ownerPriority st oid ≤ prio
      · simpa [hle] using keys_aset_nodup _ _ _ h.1
      · simpa [hle] using h.1
  · intro p hp
    have hla : (claimLight st animId prio light).lightAnims =
        aset st.lightAnims light
          (((aget st.lightAnims light).getD []) ++ [animId]) := by
      unfold claimLight
      cases aget st.owner light <;> simp
    rcases howner p hp with hnew | hold
    · subst hnew
      rw [hla, aget_aset_self]
      simp
    · by_cases hx : p.1 = light
      · rw [hla, hx, aget_aset_self]
        simp only [Option.getD_some]
        exact List.mem_append_left _ (hx ▸ h.2 p hold)
      · rw [hla, aget_aset_ne _ _ _ _ hx]
        exact h.2 p hold

theorem claimLights_preserves_inv (st : MState) (animId : Nat) (prio : Int)
    (lights : List String) (h : OwnerInLightAnims st) :
    OwnerInLightAnims (claimLights st animId prio lights) := by
  induction lights generalizing st with
  | nil => exact h
  | cons l ls ih =>
    simp only [claimLights, List.foldl_cons]
    exact ih _ (claimLight_preserves_inv _ _ _ _ h)

theorem startOp_preserves_inv (env : Env) (st : MState) (animId : Nat)
    (cfg : StartCfg) (h : OwnerInLightAnims st) :
    OwnerInLightAnims (startOp env st animId cfg) := by
  unfold startOp
  exact claimLights_preserves_inv _ _ _ _ h

theorem addLightsOp_preserves_inv (env : Env) (st : MState) (name : String)
    (lights : List String) (h : OwnerInLightAnims st) :
    OwnerInLightAnims (addLightsToAnimationOp env st name lights) := by
  unfold addLightsToAnimationOp
  cases hreg : aget st.registry name with
  | none => simp only [hreg]; exact h
  | some aid =>
    simp only [hreg]
    cases htab : aget (claimLights st aid (ownerPriority st aid) lights).table aid with
    | none =>
      simp only [htab]
      exact claimLights_preserves_inv _ _ _ _ h
    | some rcd =>
      simp only [htab]
      exact claimLights_preserves_inv _ _ _ _ h

/-- **C1** (amended). At every state reachable by `start` and
`add_lights_to_animation` operations, a light has at most one entry in
`light_owner` and that owner appears in `light_animations[light]`.
(As stated over all four operations the claim fails: `release_light`
can leave a stale owner entry, see the counterexample.) -/
theorem c1_owner_listed_under_claiming_ops (st : MState)
    (h : ReachableSA st) : OwnerInLightAnims st := by
  unfold ReachableSA at h
  induction h with
  | refl => exact ⟨List.nodup_nil, fun p hp => absurd hp (List.not_mem_nil p)⟩
  | tail _ hstep ih =>
    cases hstep with
    | start env st animId cfg hname hid => exact startOp_preserves_inv _ _ _ _ ih
    | addLights env st name lights hname => exact addLightsOp_preserves_inv _ _ _ _ ih

/-- **C1** witness: the invariant holds at a concrete reachable state. -/
theorem c1_owner_listed_under_claiming_ops_witness :
    OwnerInLightAnims (startOp envAllOn initState 0 cfgAlpha) :=
  c1_owner_listed_under_claiming_ops _
    (Relation.ReflTransGen.single (StepSA.start envAllOn initState 0 cfgAlpha rfl rfl))

/-- **C1** counterexample: start an animation on one light, then have it
release that light. The reachable result still maps the light to the
released animation in `light_owner` (owner entries are never deleted)
while `light_animations[light]` is empty, refuting the claimed invariant
for sequences that include `release_light`. -/
theorem c1_counterexample :
    Reachable (releaseLightOp (startOp envAllOn initState 0 cfgAlpha) 0
        "light.l1" false false)
    ∧ ¬ OwnerInLightAnims (releaseLightOp (startOp envAllOn initState 0 cfgAlpha) 0
        "light.l1" false false) := by
  constructor
  · exact Relation.ReflTransGen.tail
      (Relation.ReflTransGen.single (Step.start envAllOn initState 0 cfgAlpha rfl rfl))
      (Step.releaseLight _ 0 "light.l1" false false (by decide) (by decide))
  · decide

/-! ## C2: the ownership tie-break -/

theorem startOp_table (env : Env) (st : MState) (animId : Nat)
    (cfg : StartCfg) :
    (startOp env st animId cfg).table = aset st.table animId (mkAnimRec env cfg) :=
  claimLights_table
    { st with table := aset st.table animId (mkAnimRec env cfg),
              stored := storeStatesOp st.stored (mkAnimRec env cfg).active }
    animId cfg.priority cfg.lights

/-- **C2** counterexample: two animations with equal priority (the default
100) start on the same light; `light_owner` ends at the newcomer (id 1),
not the incumbent (id 0), refuting "ties favor the currently assigned
owner". -/
theorem c2_counterexample :
    (startOp envAllOn (startOp envAllOn initState 0 cfgAlpha) 1 cfgBeta).ownerOf
        "light.l1" = some 1
    ∧ (startOp envAllOn (startOp envAllOn initState 0 cfgAlpha) 1 cfgBeta).ownerOf
        "light.l1" ≠ some 0 := by
  decide

/-- **C2** (amended). In `Animations.start` and
`add_lights_to_animation`, a light with no current owner is always
assigned to the claimant, and an owned light changes owner exactly when
the current owner's priority is less than **or equal to** the claimant's:
priority ties transfer ownership to the newcomer. -/
theorem c2_ownership_transfer_rule :
    (∀ (env : Env) (st : MState) (animId : Nat) (cfg : StartCfg) (light : String),
      light ∈ cfg.lights → aget st.owner light = none →
      (startOp env st animId cfg).ownerOf light = some animId)
    ∧ (∀ (env : Env) (st : MState) (animId : Nat) (cfg : StartCfg)
        (light : String) (oid : Nat) (orec : AnimRec),
      light ∈ cfg.lights → aget st.owner light = some oid →
      aget st.table animId = none → aget st.table oid = some orec →
      (startOp env st animId cfg).ownerOf light =
        (if orec.priority ≤ cfg.priority then some animId else some oid))
    ∧ (∀ (env : Env) (st : MState) (name : String) (lights : List String)
        (aid : Nat) (light : String),
      light ∈ lights → aget st.registry name = some aid →
      aget st.owner light = none →
      (addLightsToAnimationOp env st name lights).ownerOf light = some aid)
    ∧ (∀ (env : Env) (st : MState) (name : String) (lights : List String)
        (aid : Nat) (light : String) (oid : Nat) (orec : AnimRec),
      light ∈ lights → aget st.registry name = some aid →
      aget st.owner light = some oid → aget st.table oid = some orec →
      (addLightsToAnimationOp env st name lights).ownerOf light =
        (if orec.priority ≤ ownerPriority st aid then some aid else some oid)) := by
  refine ⟨?_, ?_, ?_, ?_⟩
  · intro env st animId cfg light hmem hnone
    rw [MState.ownerOf, startOp_owner_mem env st animId cfg light hmem, hnone]
    rfl
  · intro env st animId cfg light oid orec hmem hsome hfresh htab
    have hne : oid ≠ animId := by
      intro heq
      rw [heq, hfresh] at htab
      exact Option.noConfusion htab
    rw [MState.ownerOf, startOp_owner_mem env st animId cfg light hmem, hsome]
    simp [claimRule, aget_aset_ne _ _ _ _ hne, htab]
  · intro env st name lights aid light hmem hreg hnone
    rw [MState.ownerOf, addLightsOp_owner_mem env st name lights aid light hreg hmem,
      hnone]
    rfl
  · intro env st name lights aid light oid orec hmem hreg hsome htab
    rw [MState.ownerOf, addLightsOp_owner_mem env st name lights aid light hreg hmem,
      hsome]
    simp [claimRule, htab]

/-- **C2** witness: concrete instantiations of all four parts of the
transfer rule. -/
theorem c2_ownership_transfer_rule_witness :
    (startOp envAllOn initState 0 cfgAlpha).ownerOf "light.l1" = some 0
    ∧ (startOp envAllOn (startOp envAllOn initState 0 cfgHi) 1 cfgLo).ownerOf
        "light.l2" = (if (20 : Int) ≤ 10 then some 1 else some 0) := by
  constructor
  · exact c2_ownership_transfer_rule.1 envAllOn initState 0 cfgAlpha "light.l1"
      (by decide) rfl
  · exact c2_ownership_transfer_rule.2.1 envAllOn (startOp envAllOn initState 0 cfgHi)
      1 cfgLo "light.l2" 0 (mkAnimRec envAllOn cfgHi) (by decide) (by decide)
      (by decide) (by decide)

/-! ## C3: strict priority competition -/

/-- **C3**. For a light `L` referenced by animations `A` and `B` with
`priority(A) > priority(B)`, in either start order the owner of `L` ends
at `A`, and `B`'s `update_light(L)` skips without any service call
(returning no attributes and leaving `_light_status` untouched). -/
theorem c3_higher_priority_wins_and_lower_noop
    (env : Env) (cfgA cfgB : StartCfg) (idA idB : Nat) (L : String)
    (hA : L ∈ cfgA.lights) (hB : L ∈ cfgB.lights)
    (hprio : cfgB.priority < cfgA.priority) (hid : idA ≠ idB) :
    ((startOp env (startOp env initState idA cfgA) idB cfgB).ownerOf L = some idA
      ∧ ∀ (a : AnimCfg) (status : LightStatusMap) (curIdx : Nat)
          (initial : Bool) (o : BuildOracle),
        updateLightM ((startOp env (startOp env initState idA cfgA) idB cfgB).ownerOf L)
          idB a status curIdx L initial o = .ok (none, status))
    ∧ ((startOp env (startOp env initState idB cfgB) idA cfgA).ownerOf L = some idA
      ∧ ∀ (a : AnimCfg) (status : LightStatusMap) (curIdx : Nat)
          (initial : Bool) (o : BuildOracle),
        updateLightM ((startOp env (startOp env initState idB cfgB) idA cfgA).ownerOf L)
          idB a status curIdx L initial o = .ok (none, status)) := by
  have hstep1A : (startOp env initState idA cfgA).ownerOf L = some idA := by
    rw [MState.ownerOf, startOp_owner_mem env initState idA cfgA L hA]
    rfl
  have hstep1B : (startOp env initState idB cfgB).ownerOf L = some idB := by
    rw [MState.ownerOf, startOp_owner_mem env initState idB cfgB L hB]
    rfl
  have htabA : aget (startOp env initState idA cfgA).table idA =
      some (mkAnimRec env cfgA) := by
    rw [startOp_table]
    exact aget_aset_self _ _ _
  have htabB : aget (startOp env initState idB cfgB).table idB =
      some (mkAnimRec env cfgB) := by
    rw [startOp_table]
    exact aget_aset_self _ _ _
  have hAB : (startOp env (startOp env initState idA cfgA) idB cfgB).ownerOf L
      = some idA := by
    rw [MState.ownerOf,
      startOp_owner_mem env (startOp env initState idA cfgA) idB cfgB L hB,
      show aget (startOp env initState idA cfgA).owner L = some idA from hstep1A]
    simp [claimRule, aget_aset_ne _ _ _ _ hid, htabA, mkAnimRec, not_le.mpr hprio]
  have hBA : (startOp env (startOp env initState idB cfgB) idA cfgA).ownerOf L
      = some idA := by
    rw [MState.ownerOf,
      startOp_owner_mem env (startOp env initState idB cfgB) idA cfgA L hA,
      show aget (startOp env initState idB cfgB).owner L = some idB from hstep1B]
    simp [claimRule, aget_aset_ne _ _ _ _ (Ne.symm hid), htabB, mkAnimRec,
      le_of_lt hprio]
  refine ⟨⟨hAB, ?_⟩, ⟨hBA, ?_⟩⟩
  · intro a status curIdx initial o
    rw [hAB]
    unfold updateLightM
    simp [hid]
  · intro a status curIdx initial o
    rw [hBA]
    unfold updateLightM
    simp [hid]

/-- **C3** witness: priorities 20 vs 10 on the shared light `light.l2`. -/
theorem c3_higher_priority_wins_and_lower_noop_witness :
    (startOp envAllOn (startOp envAllOn initState 0 cfgHi) 1 cfgLo).ownerOf
        "light.l2" = some 0
    ∧ updateLightM
        ((startOp envAllOn (startOp envAllOn initState 0 cfgHi) 1 cfgLo).ownerOf
          "light.l2") 1 {} [] 0 "light.l2" false {} = .ok (none, []) := by
  have h := c3_higher_priority_wins_and_lower_noop envAllOn cfgHi cfgLo 0 1 "light.l2"
    (by decide) (by decide) (by decide) (by decide)
  exact ⟨h.1.1, h.1.2 {} [] 0 false {}⟩

/-! ## C4: the ignore-off policy in `add_light` -/

/-- **C4** evaluation at the failing input: `add_light` adds a light whose
state is `"off"` to `active_lights` when `ignore_off` is **true** and
excludes it when `ignore_off` is **false** — the reverse of the claimed
policy (the direction claimed by the spec matches `pick_lights`' own
docstring and the predecessor implementation `switch.py`, which skip
off lights when the flag is set). Not-off lights are always added and
missing entities are skipped, as claimed. -/
theorem c4_add_light_inverts_ignore_off :
    envOnePorchOff "light.porch" = some "off"
    ∧ addLight envOnePorchOff true [] "light.porch" = ["light.porch"]
    ∧ addLight envOnePorchOff false [] "light.porch" = []
    ∧ addLight envAllOn false [] "light.x" = ["light.x"]
    ∧ addLight envOnePorchOff true [] "light.missing" = [] :=
  ⟨rfl, by decide, by decide, by decide, by decide⟩

/-! ## C5: the ignore-off policy in `pick_lights` -/

/-- **C5** evaluation at the failing input: with `ignore_off=true` (the
policy the claim says filters the sample) `pick_lights` returns the raw
without-replacement sample, off lights included; the filter-to-on loop
with its short-circuit runs only when `ignore_off` is **false** — the
reverse of the claim and of the method's own docstring ("If ignore_off is
enabled the method filters out lights that are currently off"). -/
theorem c5_pick_lights_inverts_ignore_off :
    envKitchen "light.k1" = some "off"
    ∧ pickLights true envKitchen ["light.k1", "light.k2"] 2 [0, 0]
        = .ok ["light.k1", "light.k2"]
    ∧ pickLights false envKitchen ["light.k1", "light.k2"] 2 [0, 0]
        = .ok ["light.k2"] :=
  ⟨rfl, rfl, rfl⟩

/-! ## C6: the mireds-to-kelvin conversion -/

/-- **C6** counterexample: at `mireds = 342` the code truncates
(`int(1000000/342) = 2923`) while the claimed `round(1000000/342) = 2924`;
both land strictly inside the clamp interval, so the results differ. -/
theorem c6_counterexample :
    convertMiredsToKelvin 342 = .ok 2923
    ∧ specMiredsToKelvin 342 = .ok 2924
    ∧ (2923 : Int) ≠ 2924 := by
  refine ⟨rfl, ?_, by decide⟩
  norm_num [specMiredsToKelvin, round_eq, MIN_KELVIN, MAX_KELVIN]

/-- **C6** (amended). For `mireds > 0` the conversion returns
`int(1_000_000/mireds)` — truncation, not rounding — clamped into
`[MIN_KELVIN, MAX_KELVIN]`; for `mireds ≤ 0` it raises an invalid-input
error; and the mired-color normalisation drops every color whose
conversion raises (no `color_temp` spec survives) while keeping all
non-mired colors. -/
theorem c6_mireds_conversion_truncates_clamps_and_drops :
    (∀ m : Int, 0 < m →
      convertMiredsToKelvin m = .ok (min MAX_KELVIN (max MIN_KELVIN (1000000 / m))))
    ∧ (∀ m : Int, m ≤ 0 →
      convertMiredsToKelvin m = .error "Mireds must be a positive integer")
    ∧ (∀ (colors : List ColorSpec) (c : ColorSpec),
      c ∈ changeMiredColorsToKelvin colors → c.ctype ≠ ATTR_COLOR_TEMP)
    ∧ (∀ (colors : List ColorSpec) (c : ColorSpec),
      c ∈ colors → c.ctype ≠ ATTR_COLOR_TEMP → c ∈ changeMiredColorsToKelvin colors) := by
  refine ⟨?_, ?_, ?_, ?_⟩
  · intro m hm
    unfold convertMiredsToKelvin
    rw [if_neg (not_le.mpr hm)]
    dsimp only
    split_ifs with h1 h2 <;>
      (simp only [Except.ok.injEq]
       unfold MIN_KELVIN MAX_KELVIN at *
       rw [max_def, min_def]
       split_ifs <;> omega)
  · intro m hm
    unfold convertMiredsToKelvin
    rw [if_pos hm]
  · intro colors c hc
    unfold changeMiredColorsToKelvin at hc
    rcases List.mem_filterMap.mp hc with ⟨a, _, heq⟩
    by_cases hty : a.ctype = ATTR_COLOR_TEMP
    · rw [if_pos hty] at heq
      cases hconv : convertMiredsToKelvin a.cval.asInt with
      | ok kelvin =>
        rw [hconv] at heq
        simp only [Option.some.injEq] at heq
        rw [← heq]
        show ATTR_COLOR_TEMP_KELVIN ≠ ATTR_COLOR_TEMP
        decide
      | error e =>
        rw [hconv] at heq
        exact Option.noConfusion heq
    · rw [if_neg hty] at heq
      injection heq with heq
      rw [← heq]
      exact hty
  · intro colors c hc hty
    unfold changeMiredColorsToKelvin
    exact List.mem_filterMap.mpr ⟨c, hc, by rw [if_neg hty]⟩

/-- **C6** witness: the amended statement evaluated at concrete inputs
(`m = 3` clamps to the upper bound, `m = 0` raises, a bad mired spec is
dropped while an RGB spec survives). -/
theorem c6_mireds_conversion_witness :
    convertMiredsToKelvin 3 = .ok (min MAX_KELVIN (max MIN_KELVIN (1000000 / 3)))
    ∧ convertMiredsToKelvin 0 = .error "Mireds must be a positive integer"
    ∧ ({ ctype := ATTR_RGB_COLOR, cval := .tup [255, 0, 0] } : ColorSpec) ∈
        changeMiredColorsToKelvin
          [{ ctype := ATTR_COLOR_TEMP, cval := .int 0 },
           { ctype := ATTR_RGB_COLOR, cval := .tup [255, 0, 0] }] := by
  refine ⟨?_, ?_, ?_⟩
  · exact c6_mireds_conversion_truncates_clamps_and_drops.1 3 (by decide)
  · exact c6_mireds_conversion_truncates_clamps_and_drops.2.1 0 (by decide)
  · exact c6_mireds_conversion_truncates_clamps_and_drops.2.2.2
      [{ ctype := ATTR_COLOR_TEMP, cval := .int 0 },
       { ctype := ATTR_RGB_COLOR, cval := .tup [255, 0, 0] }]
      { ctype := ATTR_RGB_COLOR, cval := .tup [255, 0, 0] }
      (by decide) (by decide)

/-! ## C7: `get_static_or_random` on a degenerate range -/

/-- **C7** counterexample: on the degenerate float range `[0.25, 0.25]`
the draw landing exactly on the bound (`uniform` position `r = 0`, so the
drawn value is exactly `0.25`) returns `round(0.25, 1) = 0.2`, not
`0.25`. -/
theorem c7_counterexample :
    getStaticOrRandom (.list2 (.float (1/4)) (.float (1/4))) 1 {} = .ok (1/5)
    ∧ (1/5 : ℚ) ≠ 1/4 := by
  constructor
  · norm_num [getStaticOrRandom, PyNum.isFloat, PyNum.toQ, round1, roundHalfEven]
  · norm_num

/-- **C7** (amended). `get_static_or_random([x, x])` returns exactly `x`
for integer `x` (for any draw); for float `x` it returns the drawn value
rounded to one decimal, which equals `x` exactly when `x` is a multiple
of `0.1` (0 ≤ draw position ≤ 1 and the `nextafter` nudge below half a
decimal step) — otherwise the result is `x` rounded, e.g. `0.25 → 0.2`. -/
theorem c7_degenerate_range_rounds (x k : Int) (o o2 : GsrOracle)
    (hr0 : 0 ≤ o2.r) (hr1 : o2.r ≤ 1) (he0 : 0 ≤ o2.eps) (he1 : o2.eps < 1/20) :
    getStaticOrRandom (.list2 (.int x) (.int x)) 1 o = .ok x
    ∧ getStaticOrRandom (.list2 (.float ((k : ℚ)/10)) (.float ((k : ℚ)/10))) 1 o2
        = .ok ((k : ℚ)/10) := by
  constructor
  · simp only [getStaticOrRandom, PyNum.isFloat, PyNum.toInt, randrangeM,
      Bool.or_self, Bool.false_eq_true, if_false]
    have hrange : ¬((x : Int) ≥ x + 1 ∨ (1 : Int) ≤ 0) := by omega
    rw [if_neg hrange]
    have hn : ((x + 1 - x + 1 - 1) / 1 : Int).toNat = 1 := by norm_num
    rw [hn]
    simp [Except.map]
  · have hval : (k : ℚ)/10 + (((k : ℚ)/10 + o2.eps) - (k : ℚ)/10) * o2.r
        = (k : ℚ)/10 + o2.eps * o2.r := by ring
    have hd0 : 0 ≤ o2.eps * o2.r := mul_nonneg he0 hr0
    have hd1 : o2.eps * o2.r < 1/20 := by
      calc o2.eps * o2.r ≤ o2.eps * 1 := by
            exact mul_le_mul_of_nonneg_left hr1 he0
        _ = o2.eps := by ring
        _ < 1/20 := he1
    simp only [getStaticOrRandom, PyNum.isFloat, PyNum.toQ, Bool.or_self, if_true]
    rw [hval]
    have h10 : 10 * ((k : ℚ)/10 + o2.eps * o2.r) = (k : ℚ) + 10 * (o2.eps * o2.r) := by
      ring
    have hfloor : ⌊(k : ℚ) + 10 * (o2.eps * o2.r)⌋ = k := by
      rw [Int.floor_int_add]
      have : ⌊10 * (o2.eps * o2.r)⌋ = 0 := by
        rw [Int.floor_eq_zero_iff]
        constructor
        · positivity
        · calc 10 * (o2.eps * o2.r) < 10 * (1/20) := by
                exact mul_lt_mul_of_pos_left hd1 (by norm_num)
            _ = 1/2 := by norm_num
            _ ≤ 1 := by norm_num
      omega
    have hfrac : (k : ℚ) + 10 * (o2.eps * o2.r) - (k : ℚ) < 1/2 := by
      have : 10 * (o2.eps * o2.r) < 1/2 := by
        calc 10 * (o2.eps * o2.r) < 10 * (1/20) := by
              exact mul_lt_mul_of_pos_left hd1 (by norm_num)
          _ = 1/2 := by norm_num
      linarith
    unfold round1 roundHalfEven
    rw [h10, hfloor]
    rw [if_pos (by linarith)]

/-- **C7** witness: the degenerate integer range `[7, 7]` and the decimal
float range `[0.3, 0.3]` at a concrete draw. -/
theorem c7_degenerate_range_rounds_witness :
    getStaticOrRandom (.list2 (.int 7) (.int 7)) 1 {} = .ok 7
    ∧ getStaticOrRandom (.list2 (.float ((3 : ℚ)/10)) (.float ((3 : ℚ)/10))) 1
        { r := 1, eps := 1/100 } = .ok ((3 : ℚ)/10) := by
  have h := c7_degenerate_range_rounds 7 3 {} { r := 1, eps := 1/100 }
    (by norm_num) (by norm_num) (by norm_num) (by norm_num)
  exact ⟨h.1, h.2⟩

/-! ## C8: `Animation.start` scheduling -/

/-- **C8** counterexample: `change_frequency = 0.0` is a configured value
(the schema range is `0..60`), yet `if not self._change_frequency` treats
it as falsy, so `start` releases immediately and never schedules the
loop, refuting "a configured change_frequency schedules the recurring
loop". -/
theorem c8_counterexample :
    animationStartM (.ok []) (.scalar 0) false = .ok .releasedImmediately
    ∧ StartSchedule.releasedImmediately ≠ StartSchedule.scheduledNew := by
  refine ⟨?_, by decide⟩
  norm_num [animationStartM, changeFreqFalsy]

/-- **C8** (amended). After a successful initial fan-out: with a truthy
(nonzero scalar or two-element range) `change_frequency`, `start`
schedules the loop task exactly once — a second `start` with a live task
changes nothing; with `change_frequency` absent (`None`) or equal to `0`,
`start` releases immediately without scheduling. -/
theorem c8_start_schedules_once (fan : Except String (List (Option LightAttrs)))
    (v : List (Option LightAttrs)) (cf : ChangeFreq) (b : Bool)
    (hfan : fan = .ok v) :
    (changeFreqFalsy cf = false →
      animationStartM fan cf false = .ok .scheduledNew
      ∧ animationStartM fan cf true = .ok .keptExistingTask)
    ∧ animationStartM fan .noneV b = .ok .releasedImmediately
    ∧ animationStartM fan (.scalar 0) b = .ok .releasedImmediately := by
  subst hfan
  refine ⟨fun hcf => ⟨?_, ?_⟩, ?_, ?_⟩
  · simp [animationStartM, hcf]
  · simp [animationStartM, hcf]
  · simp [animationStartM, changeFreqFalsy]
  · norm_num [animationStartM, changeFreqFalsy]

/-- **C8** witness: a truthy frequency schedules once and is idempotent
while a task is live; `None` releases immediately. -/
theorem c8_start_schedules_once_witness :
    animationStartM (.ok []) (.scalar (1/2)) false = .ok .scheduledNew
    ∧ animationStartM (.ok []) (.scalar (1/2)) true = .ok .keptExistingTask
    ∧ animationStartM (.ok []) .noneV false = .ok .releasedImmediately := by
  have h := c8_start_schedules_once (.ok []) [] (.scalar (1/2)) false rfl
  have hcf : changeFreqFalsy (.scalar (1/2)) = false := by
    norm_num [changeFreqFalsy]
  exact ⟨(h.1 hcf).1, (h.1 hcf).2, h.2.1⟩

/-! ## C9: over-large change amounts -/

theorem except_bind_ok {α β : Type} (a : α) (f : α → Except String β) :
    ((Except.ok a : Except String α) >>= f) = f a := rfl

theorem except_bind_error {α β : Type} (e : String)
    (f : α → Except String β) :
    ((Except.error e : Except String α) >>= f) = Except.error e := rfl

/-- **C9**. A tick whose resolved numeric `change_amount` exceeds the
number of active lights raises the without-replacement sample's
`ValueError` out of `update_lights` (no clamping to the available
lights), and the animation loop aborts on that tick, exiting through its
`finally` release path. -/
theorem c9_change_amount_exceeding_active_errors
    (ownerOf : String → Option Nat) (selfId : Nat) (a : AnimCfg)
    (ignoreOff : Bool) (env : Env) (active : List String) (n : Int)
    (status : LightStatusMap) (curIdx : Nat) (o : TickOracle)
    (rest : List (Except String (Option (List (Option LightAttrs) × LightStatusMap × Nat))))
    (hn : (active.length : Int) < n) :
    updateLightsM ownerOf selfId a ignoreOff env active (.num (.num (.int n)))
        status curIdx o
      = .error "Sample larger than population or is negative"
    ∧ animateRun (updateLightsM ownerOf selfId a ignoreOff env active
          (.num (.num (.int n))) status curIdx o :: rest)
      = (.aborted "Sample larger than population or is negative", true) := by
  have hn0 : 0 < n := lt_of_le_of_lt (Int.ofNat_nonneg active.length) hn
  have hq : ¬((n : ℚ) ≤ 0) := by
    intro h
    exact absurd (by exact_mod_cast h : n ≤ 0) (not_le.mpr hn0)
  have hres : resolveChangeAmount (.num (.num (.int n))) active.length o.amount
      = .ok (some n) := by
    simp only [resolveChangeAmount, getStaticOrRandom, PyNum.toQ, Except.map]
    rw [if_neg hq, Int.floor_intCast]
  have hsamp : sampleM active n.toNat o.sample
      = .error "Sample larger than population or is negative" := by
    unfold sampleM
    rw [if_pos (Int.lt_toNat.mpr hn)]
  have hpick : pickLights ignoreOff env active n.toNat o.sample
      = .error "Sample larger than population or is negative" := by
    unfold pickLights
    cases hio : ignoreOff <;> simp [hsamp]
  have hmain : updateLightsM ownerOf selfId a ignoreOff env active
      (.num (.num (.int n))) status curIdx o
      = .error "Sample larger than population or is negative" := by
    unfold updateLightsM
    rw [hres, except_bind_ok]
    dsimp only
    rw [hpick, except_bind_error]
  exact ⟨hmain, by rw [hmain]; rfl⟩

/-- **C9** witness: one active light, `change_amount = 2`. -/
theorem c9_change_amount_exceeding_active_errors_witness :
    updateLightsM (fun _ => none) 0 {} true envAllOn ["light.l1"]
        (.num (.num (.int 2))) [] 0 {}
      = .error "Sample larger than population or is negative"
    ∧ animateRun (updateLightsM (fun _ => none) 0 {} true envAllOn ["light.l1"]
          (.num (.num (.int 2))) [] 0 {} :: [])
      = (.aborted "Sample larger than population or is negative", true) :=
  c9_change_amount_exceeding_active_errors (fun _ => none) 0 {} true envAllOn
    ["light.l1"] 2 [] 0 {} [] (by norm_num)

/-! ## C10: empty color list on start -/

theorem pickColor_nil_error (weights : List Int) (pick : Nat) :
    ∃ e, pickColor [] weights pick = .error e := by
  unfold pickColor
  by_cases h1 : ([] : List ColorSpec).length ≠ weights.length
  · rw [if_pos h1]
    exact ⟨_, rfl⟩
  · rw [if_neg h1]
    exact ⟨_, rfl⟩

theorem build_empty_colors_error (a : AnimCfg) (status : LightStatusMap)
    (curIdx : Nat) (light : String) (initial : Bool) (o : BuildOracle)
    (hc : a.colors = []) (hs : a.sequence = false)
    (hst : aget status light = none) :
    ∃ e, buildLightAttributes a status curIdx light initial o = .error e := by
  unfold buildLightAttributes
  rw [hst]
  rcases pickColor_nil_error a.weights o.pick with ⟨e, he⟩
  refine ⟨e, ?_⟩
  unfold buildLightAttributesMain
  rw [hs]
  simp only [Bool.false_eq_true, if_false]
  rw [hc, he, except_bind_error]

theorem fanOutGo_error (ownerOf : String → Option Nat) (selfId : Nat)
    (a : AnimCfg) (o : String → BuildOracle)
    (hc : a.colors = []) (hs : a.sequence = false) :
    ∀ (active : List String) (rs : List (Option LightAttrs)),
      (∃ L ∈ active, ownerOf L = some selfId ∨ ownerOf L = none) →
      ∃ e, fanOutGo ownerOf selfId a o active rs [] = .error e := by
  intro active
  induction active with
  | nil =>
    rintro rs ⟨L, hL, _⟩
    exact absurd hL (List.not_mem_nil L)
  | cons l ls ih =>
    rintro rs ⟨L, hL, hbad⟩
    cases hOL : ownerOf l with
    | none =>
      refine ⟨"KeyError: light_owner", ?_⟩
      unfold fanOutGo updateLightM
      rw [hOL]
    | some oid =>
      by_cases hoid : oid = selfId
      · rcases build_empty_colors_error a [] 0 l true (o l) hc hs rfl with ⟨e, he⟩
        refine ⟨e, ?_⟩
        unfold fanOutGo updateLightM
        rw [hOL]
        dsimp only
        rw [if_neg (not_not_intro hoid), he]
        rfl
      · have hskip : updateLightM (ownerOf l) selfId a [] 0 l true (o l)
            = .ok (none, []) := by
          unfold updateLightM
          rw [hOL]
          dsimp only
          rw [if_pos hoid]
        have hstep : fanOutGo ownerOf selfId a o (l :: ls) rs []
            = fanOutGo ownerOf selfId a o ls (rs ++ [none]) [] := by
          conv_lhs => unfold fanOutGo
          rw [hskip]
        rw [hstep]
        refine ih (rs ++ [none]) ⟨L, ?_, hbad⟩
        rcases List.mem_cons.mp hL with hLl | hLl
        · exfalso
          rw [hLl] at hbad
          rcases hbad with hbad | hbad
          · rw [hOL] at hbad
            exact hoid (Option.some.injEq _ _ ▸ hbad)
          · rw [hOL] at hbad
            exact Option.noConfusion hbad
        · exact hLl

theorem mem_addLight_self (env : Env) (io : Bool) (active : List String)
    (light s : String) (henv : env light = some s)
    (hpol : s ≠ "off" ∨ io = true) :
    light ∈ addLight env io active light := by
  unfold addLight
  rw [henv]
  dsimp only
  by_cases hmem : light ∈ active
  · rw [if_neg (by intro hcon; exact hcon.1 hmem)]
    exact hmem
  · rw [if_pos ⟨hmem, hpol⟩]
    exact List.mem_append_right _ (List.mem_singleton.mpr rfl)

theorem mem_addLight_mono (env : Env) (io : Bool) (active : List String)
    (light x : String) (hx : x ∈ active) : x ∈ addLight env io active light := by
  unfold addLight
  cases env light with
  | none => exact hx
  | some s =>
    dsimp only
    split_ifs with h
    · exact List.mem_append_left _ hx
    · exact hx

theorem mem_addLights_mono (env : Env) (io : Bool) (ids : List String) :
    ∀ (active : List String) (x : String), x ∈ active →
      x ∈ addLights env io active ids := by
  induction ids with
  | nil => intro active x hx; exact hx
  | cons l ls ih =>
    intro active x hx
    exact ih (addLight env io active l) x (mem_addLight_mono env io active l x hx)

theorem mem_addLights (env : Env) (io : Bool) (ids : List String)
    (light s : String) (hl : light ∈ ids) (henv : env light = some s)
    (hpol : s ≠ "off" ∨ io = true) :
    ∀ (active : List String), light ∈ addLights env io active ids := by
  induction ids with
  | nil => exact absurd hl (List.not_mem_nil light)
  | cons l ls ih =>
    intro active
    rcases List.mem_cons.mp hl with hll | hll
    · subst hll
      exact mem_addLights_mono env io ls (addLight env io active light) light
        (mem_addLight_self env io active light s henv hpol)
    · exact ih hll (addLight env io active l)

/-- **C10**. Starting an animation whose color list is empty (the schema
default) in non-sequence mode, with at least one configured light that
passes the active-light filter and ends up owned by the new animation
(which `start`'s claim loop guarantees whenever no strictly
higher-priority owner holds it), makes the initial `update_light` fan-out
raise: the weighted random pick draws from empty colors/weights, and
nothing guards `start` against it. -/
theorem c10_empty_colors_initial_fanout_raises
    (env : Env) (st : MState) (animId : Nat) (cfg : StartCfg) (L : String)
    (s : String) (o : String → BuildOracle)
    (hcolors : cfg.colors = []) (hseq : cfg.sequence = false)
    (hL : L ∈ cfg.lights) (henv : env L = some s)
    (hpol : s ≠ "off" ∨ cfg.ignoreOff = true)
    (hclaim : ∀ oid, aget st.owner L = some oid →
      ownerPriority st oid ≤ cfg.priority) :
    ∃ e, startFanOutM (startOp env st animId cfg).ownerOf animId cfg.animCfg
        (mkAnimRec env cfg).active o = .error e := by
  have hact : L ∈ (mkAnimRec env cfg).active :=
    mem_addLights env cfg.ignoreOff cfg.lights L s hL henv hpol []
  have hown : (startOp env st animId cfg).ownerOf L = some animId := by
    rw [MState.ownerOf, startOp_owner_mem env st animId cfg L hL]
    cases hO : aget st.owner L with
    | none => rfl
    | some oid =>
      by_cases hoid : oid = animId
      · subst hoid
        unfold claimRule
        dsimp only
        split_ifs <;> rfl
      · unfold claimRule
        dsimp only
        rw [aget_aset_ne _ _ _ _ hoid,
          if_pos (show ((aget st.table oid).map (·.priority)).getD 0 ≤ cfg.priority
            from hclaim oid hO)]
  have hc : cfg.animCfg.colors = [] := by
    simp [StartCfg.animCfg, hcolors, changeMiredColorsToKelvin]
  have hs : cfg.animCfg.sequence = false := hseq
  exact fanOutGo_error (startOp env st animId cfg).ownerOf animId cfg.animCfg o
    hc hs (mkAnimRec env cfg).active [] ⟨L, hact, Or.inl hown⟩

/-- **C10** witness: a fresh start of the default-configured animation
`cfgAlpha` (empty colors, non-sequence) on the single on light
`light.l1`. -/
theorem c10_empty_colors_initial_fanout_raises_witness :
    ∃ e, startFanOutM (startOp envAllOn initState 0 cfgAlpha).ownerOf 0
        cfgAlpha.animCfg (mkAnimRec envAllOn cfgAlpha).active
        (fun _ => {}) = .error e :=
  c10_empty_colors_initial_fanout_raises envAllOn initState 0 cfgAlpha
    "light.l1" "on" (fun _ => {}) rfl rfl (by decide) rfl (Or.inl (by decide))
    (fun oid h => nomatch h)

end AnimatedScenes
